import Mathlib

/-!
Shallow embedding of the GPDMA driver (src/embassy-stm32/src/dma/gpdma.rs)
and verification of its specification claims.

Hardware registers of one channel are modelled as a record of field values;
a register write built from a closure starts from the all-zero reset value,
as the register access layer does. Panics (assertion failures / contract
violations) are modelled as `Option.none`. Interrupt-context and drop-path
behaviour is modelled as explicit action traces over a sequence of status
register values read from the hardware.
-/

namespace Gpdma

/-- Word sizes, from `super::word::WordSize` (1, 2 or 4 bytes). -/
inductive WordSize
  | OneByte
  | TwoBytes
  | FourBytes
deriving DecidableEq

/-- Byte width of a word size (`WordSize::bytes`). -/
def WordSize.bytes : WordSize → Nat
  | .OneByte => 1
  | .TwoBytes => 2
  | .FourBytes => 4

/-- The controller's data-width encoding `vals::Dw`. -/
inductive Dw
  | BYTE
  | HALFWORD
  | WORD
deriving DecidableEq

/-- `impl From<WordSize> for vals::Dw`. -/
def WordSize.toDw : WordSize → Dw
  | .OneByte => .BYTE
  | .TwoBytes => .HALFWORD
  | .FourBytes => .WORD

/-- Transfer direction `Dir`. -/
inductive Dir
  | MemoryToPeripheral
  | PeripheralToMemory
deriving DecidableEq

/-- Request-routing direction encoding `vals::Dreq`. -/
inductive Dreq
  | DESTINATIONPERIPHERAL
  | SOURCEPERIPHERAL
deriving DecidableEq

/-- Channel status register SR (read-only flags). -/
structure StatusReg where
  tcf : Bool
  suspf : Bool
  dtef : Bool
  usef : Bool
deriving DecidableEq

/-- Channel control register CR (the fields the driver touches). -/
structure ControlReg where
  reset : Bool
  en : Bool
  susp : Bool
  tcie : Bool
  useie : Bool
  dteie : Bool
  suspie : Bool
deriving DecidableEq

/-- The reset value of CR: all bits clear. `write(|w| ...)` starts here. -/
def ControlReg.zero : ControlReg :=
  { reset := false, en := false, susp := false,
    tcie := false, useie := false, dteie := false, suspie := false }

/-- Transfer register TR1 (widths and increment flags). -/
structure Tr1 where
  sdw : Dw
  ddw : Dw
  sinc : Bool
  dinc : Bool
deriving DecidableEq

/-- Transfer register TR2 (request routing). -/
structure Tr2 where
  dreq : Dreq
  reqsel : Nat
deriving DecidableEq

/-- The register block of one channel, as the driver programs it.
`br1bndt` is the 16-bit byte-count field BNDT, `lbar` the 16-bit
linked-list base-address field LBA, `llr` the raw 32-bit link register. -/
structure ChannelRegs where
  cr : ControlReg
  tr1 : Tr1
  tr2 : Tr2
  br1bndt : Nat
  sar : Nat
  dar : Nat
  llr : Nat
  lbar : Nat
  fcr : Nat
deriving DecidableEq

/-- An arbitrary initial register state used by concrete evaluations. -/
def regs0 : ChannelRegs :=
  { cr := ControlReg.zero,
    tr1 := { sdw := .BYTE, ddw := .BYTE, sinc := false, dinc := false },
    tr2 := { dreq := .DESTINATIONPERIPHERAL, reqsel := 0 },
    br1bndt := 0, sar := 0, dar := 0, llr := 0, lbar := 0, fcr := 0 }

/-- `Transfer::is_running`: reads SR and returns `!sr.tcf() && !sr.suspf()`.
Modelled as a pure function of the status value read. -/
def Transfer.is_running (sr : StatusReg) : Bool :=
  !sr.tcf && !sr.suspf

/-- `Transfer::new_inner`: programs the channel registers for a simple
transfer. Mirrors the write sequence of the source: CR reset, FCR clear,
LLR clear, TR1 (widths and per-direction increments), TR2 (request
routing), BR1 byte count (`(mem_len * data_size.bytes()) as u16` — a
truncating cast, modelled as `% 65536`), SAR/DAR swapped by direction,
and finally CR with all interrupt enables and the enable bit set. -/
def Transfer.new_inner (regs : ChannelRegs) (request : Nat) (dir : Dir)
    (peri_addr mem_addr : Nat) (mem_len : Nat) (incr_mem : Bool)
    (data_size : WordSize) : ChannelRegs :=
  let regs := { regs with cr := { ControlReg.zero with reset := true } }
  let regs := { regs with fcr := 0xFFFFFFFF }
  let regs := { regs with llr := 0 }
  let regs := { regs with tr1 :=
    { sdw := data_size.toDw, ddw := data_size.toDw,
      sinc := dir == Dir.MemoryToPeripheral && incr_mem,
      dinc := dir == Dir.PeripheralToMemory && incr_mem } }
  let regs := { regs with tr2 :=
    { dreq := match dir with
        | .MemoryToPeripheral => Dreq.DESTINATIONPERIPHERAL
        | .PeripheralToMemory => Dreq.SOURCEPERIPHERAL,
      reqsel := request } }
  let regs := { regs with br1bndt := (mem_len * data_size.bytes) % 65536 }
  let regs := match dir with
    | .MemoryToPeripheral => { regs with sar := mem_addr, dar := peri_addr }
    | .PeripheralToMemory => { regs with sar := peri_addr, dar := mem_addr }
  { regs with cr := { ControlReg.zero with
      tcie := true, useie := true, dteie := true, suspie := true, en := true } }

/-- `Transfer::new_read_raw`: asserts `len > 0 && len <= 0xFFFF` on the
element count of the buffer, then starts a peripheral-to-memory transfer
with memory increment enabled. A failed assertion is `none`. -/
def Transfer.new_read_raw (regs : ChannelRegs) (request : Nat)
    (peri_addr buf_ptr : Nat) (len : Nat) (w : WordSize) : Option ChannelRegs :=
  if 0 < len ∧ len ≤ 0xFFFF then
    some (Transfer.new_inner regs request Dir.PeripheralToMemory
      peri_addr buf_ptr len true w)
  else
    none

/-- `Transfer::new_read` delegates to `new_read_raw`. -/
def Transfer.new_read (regs : ChannelRegs) (request : Nat)
    (peri_addr buf_ptr : Nat) (len : Nat) (w : WordSize) : Option ChannelRegs :=
  Transfer.new_read_raw regs request peri_addr buf_ptr len w

/-- `Transfer::new_write_raw`: asserts `len > 0 && len <= 0xFFFF` on the
element count, then starts a memory-to-peripheral transfer with memory
increment enabled. -/
def Transfer.new_write_raw (regs : ChannelRegs) (request : Nat)
    (buf_ptr : Nat) (len : Nat) (peri_addr : Nat) (w : WordSize) :
    Option ChannelRegs :=
  if 0 < len ∧ len ≤ 0xFFFF then
    some (Transfer.new_inner regs request Dir.MemoryToPeripheral
      peri_addr buf_ptr len true w)
  else
    none

/-- `Transfer::new_write` delegates to `new_write_raw`. -/
def Transfer.new_write (regs : ChannelRegs) (request : Nat)
    (buf_ptr : Nat) (len : Nat) (peri_addr : Nat) (w : WordSize) :
    Option ChannelRegs :=
  Transfer.new_write_raw regs request buf_ptr len peri_addr w

/-- `Transfer::new_write_repeated`: no length assertion at all; starts a
memory-to-peripheral transfer with `incr_mem = false`. -/
def Transfer.new_write_repeated (regs : ChannelRegs) (request : Nat)
    (repeated_addr : Nat) (count : Nat) (peri_addr : Nat) (w : WordSize) :
    Option ChannelRegs :=
  some (Transfer.new_inner regs request Dir.MemoryToPeripheral
    peri_addr repeated_addr count false w)

/-- Actions the interrupt handler may perform on the hardware, besides
reading SR: writing CR, writing the flag-clear register FCR, and waking
the registered waker (`state.waker.wake()`). -/
inductive IrqAction
  | writeCr (v : ControlReg)
  | writeFcr (v : Nat)
  | wake
deriving DecidableEq

/-- Outcome of one interrupt: either the system aborts with a diagnostic
carrying the controller address and the channel number, or the handler
runs to completion having performed a list of actions. -/
inductive IrqOutcome
  | panicked (msg : String) (dmaAddr : Nat) (num : Nat)
  | ran (actions : List IrqAction)
deriving DecidableEq

/-- `AnyChannel::on_irq` as a function of the status value read. The two
`if` statements of the source are sequential, but the first aborts, so
the second runs only when `dtef` is clear. On `suspf || tcf` it writes CR
with the reset value (`ch.cr().write(|_| {})`), clearing every
interrupt-enable bit, and then wakes the waker. It never writes FCR. -/
def AnyChannel.on_irq (dmaAddr num : Nat) (sr : StatusReg) : IrqOutcome :=
  if sr.dtef then
    .panicked "DMA: data transfer error" dmaAddr num
  else if sr.usef then
    .panicked "DMA: user settings error" dmaAddr num
  else if sr.suspf || sr.tcf then
    .ran [.writeCr ControlReg.zero, .wake]
  else
    .ran []

/-- Actions of the poll path, in order: registering the context's waker
with the channel's `AtomicWaker`, then reading the status register. -/
inductive PollAction
  | registerWaker
  | readStatus (sr : StatusReg)
deriving DecidableEq

/-- Result of `Future::poll`. -/
inductive PollResult
  | Pending
  | Ready
deriving DecidableEq

/-- `impl Future for Transfer`: registers the waker, then checks
`is_running` on the status value read; `Pending` when still running,
`Ready` otherwise. Returns the action trace together with the result. -/
def Transfer.poll (sr : StatusReg) : List PollAction × PollResult :=
  let trace := [PollAction.registerWaker, PollAction.readStatus sr]
  (trace, if Transfer.is_running sr then PollResult.Pending else PollResult.Ready)

/-- Actions of the drop path: setting the suspend-request bit
(`request_stop`, a CR modify), reading the status register once per
`is_running` poll, and the trailing acquire-side fence. -/
inductive DropAction
  | setSusp
  | readStatus (sr : StatusReg)
  | fenceAcquire
deriving DecidableEq

/-- The busy-poll loop `while self.is_running() {}` over the sequence of
status values the hardware will deliver: reads statuses until one shows
not-running; `none` when the sequence is exhausted while still running
(the loop has not terminated). -/
def busyPoll : List StatusReg → Option (List DropAction)
  | [] => none
  | sr :: rest =>
    if Transfer.is_running sr then
      (busyPoll rest).map (fun acts => DropAction.readStatus sr :: acts)
    else
      some [DropAction.readStatus sr]

/-- `impl Drop for Transfer`: `request_stop` (set the suspend-request
bit), busy-poll `is_running` to false, then the trailing fence. The
result is the action trace of a terminating drop, `none` if the hardware
never reports stopped within the given status sequence. -/
def Transfer.drop (srs : List StatusReg) : Option (List DropAction) :=
  (busyPoll srs).map
    (fun acts => DropAction.setSusp :: (acts ++ [DropAction.fenceAcquire]))

/-- Linked-list item `LliItem`: destination address and link register
value. `#[derive(Default)]` gives `dar = 0, llr = 0`. -/
structure LliItem where
  dar : Nat
  llr : Nat
deriving DecidableEq

instance : Inhabited LliItem := ⟨{ dar := 0, llr := 0 }⟩

/-- `LliItem::set_llr`: `llr = (la as u32) | 1 << 27 | 1 << 16` (link
address plus the UDA and ULL flag bits). `la` is already a 16-bit value;
the truncation `as u16` happens at the call sites. -/
def LliItem.set_llr (item : LliItem) (la : Nat) : LliItem :=
  { item with llr := la ||| (1 <<< 27) ||| (1 <<< 16) }

/-- Termination mode `LliOption` of the linked list. -/
inductive LliOption
  | Repeated
  | Single
deriving DecidableEq

/-- The update `fixing_in_mem` applies to the entry at index `i` of an
`n`-entry table whose entry `j` lives at address `addr j`: entries before
the last link to the next entry's address truncated to 16 bits; the last
entry links back to entry 0 (`Repeated`) or gets link 0 (`Single`). -/
def link_entry (addr : Nat → Nat) (n : Nat) (opt : LliOption) (i : Nat)
    (item : LliItem) : LliItem :=
  if i + 1 < n then
    item.set_llr (addr (i + 1) % 65536)
  else
    match opt with
    | .Repeated => item.set_llr (addr 0 % 65536)
    | .Single => { item with llr := 0 }

/-- The loop of `fixing_in_mem`, carrying the running index. -/
def fix_links (addr : Nat → Nat) (n : Nat) (opt : LliOption) :
    Nat → List LliItem → List LliItem
  | _, [] => []
  | i, item :: rest => link_entry addr n opt i item :: fix_links addr n opt (i + 1) rest

/-- `LliTable::fixing_in_mem`: chains the table's entries in memory.
`addr j` models `ptr::addr_of!(self.items[j])`, the absolute address of
entry `j` at chain time. -/
def LliTable.fixing_in_mem (items : List LliItem) (addr : Nat → Nat)
    (opt : LliOption) : List LliItem :=
  fix_links addr items.length opt 0 items

/-- The `LliTable` record: the caller's buffers (`addrs` in the source)
and the parallel descriptor items. `β` abstracts the buffer reference
type `&[W; BUFLEN]`. -/
structure LliTable (β : Type) where
  addrs : List β
  items : List LliItem
deriving DecidableEq

/-- `LliTable::new`: asserts `MEMS > 1` and `BUFLEN > 0`, and for each
buffer that its byte length `BUFLEN * word_size` is in `(0, 0xFFFF]`;
captures each buffer's start address (`addrOf b`, modelling
`slice_ptr_parts`) into the parallel item's `dar`; links are left 0. -/
def LliTable.new {β : Type} (addrs : List β) (addrOf : β → Nat)
    (buflen : Nat) (w : WordSize) : Option (LliTable β) :=
  if 1 < addrs.length ∧ 0 < buflen
      ∧ 0 < buflen * w.bytes ∧ buflen * w.bytes ≤ 0xFFFF then
    some { addrs := addrs,
           items := addrs.map (fun b => { dar := addrOf b, llr := 0 }) }
  else
    none

/-- `LliTable::find_last_buffer_in_double_buffer_mode`: asserts a
2-entry table (`MEMS == 2`, modelled as `none` on failure), then returns
`addrs[1]` when item 0's captured address equals the argument and
`addrs[0]` otherwise. -/
def LliTable.find_last_buffer_in_double_buffer_mode {β : Type} [Inhabited β]
    (t : LliTable β) (dar : Nat) : Option β :=
  if t.addrs.length = 2 then
    some (if t.items.headI.dar = dar then t.addrs[1]! else t.addrs[0]!)
  else
    none

/-- `Transfer::new_read_with_lli`: programs a linked-list
peripheral-to-memory transfer. Mirrors the source's write sequence:
CR reset, FCR clear, TR1 with source increment off and destination
increment on, TR2, SAR with the peripheral address, `fixing_in_mem` on
the table, LBAR with the upper 16 bits of entry 0's address, BR1 with
the per-buffer byte count, DAR preloaded from entry 0's captured buffer
address, LLR preloaded from entry 0's link field, and CR arming the
channel. Returns the final registers and the chained table. -/
def Transfer.new_read_with_lli (regs : ChannelRegs) (request : Nat)
    (peri_addr : Nat) (items : List LliItem) (addr : Nat → Nat)
    (lli_option : LliOption) (buflen : Nat) (w : WordSize) :
    ChannelRegs × List LliItem :=
  let regs := { regs with cr := { ControlReg.zero with reset := true } }
  let regs := { regs with fcr := 0xFFFFFFFF }
  let regs := { regs with tr1 :=
    { sdw := w.toDw, ddw := w.toDw, sinc := false, dinc := true } }
  let regs := { regs with tr2 :=
    { dreq := Dreq.SOURCEPERIPHERAL, reqsel := request } }
  let regs := { regs with sar := peri_addr }
  let fixed := LliTable.fixing_in_mem items addr lli_option
  let llis_base_addr := addr 0
  let regs := { regs with lbar := (llis_base_addr >>> 16) % 65536 }
  let regs := { regs with br1bndt := (buflen * w.bytes) % 65536 }
  let regs := { regs with dar := fixed.headI.dar }
  let regs := { regs with llr := fixed.headI.llr }
  let regs := { regs with cr := { ControlReg.zero with
      tcie := true, useie := true, dteie := true, suspie := true, en := true } }
  (regs, fixed)

end Gpdma

namespace Gpdma

/-- C5: `is_running` returns `false` exactly when the transfer-complete
flag or the suspend-complete flag of the status value is set. -/
theorem is_running_false_iff_done (sr : StatusReg) :
    Transfer.is_running sr = false ↔ (sr.tcf = true ∨ sr.suspf = true) := by
  cases sr with
  | mk tcf suspf dtef usef =>
    cases tcf <;> cases suspf <;> simp [Transfer.is_running]

/-- C10: `new_write_repeated` performs no length validation: for every
count (including 0 and counts whose byte length exceeds 65535) it returns
a transfer, with the byte-count register programmed to
`(count * word_size) mod 2^16` and the memory-side (source) increment
disabled. -/
theorem new_write_repeated_no_validation (regs : ChannelRegs)
    (request repeated_addr count peri_addr : Nat) (w : WordSize) :
    (Transfer.new_write_repeated regs request repeated_addr count peri_addr w).isSome
      = true ∧
    (Transfer.new_write_repeated regs request repeated_addr count peri_addr w).map
        (fun r => (r.br1bndt, r.tr1.sinc, r.tr1.dinc))
      = some ((count * w.bytes) % 65536, false, false) := by
  constructor
  · rfl
  · rfl

/-- C1: the claim that simple-transfer constructors reject whenever
`element_count * word_size` is 0 or exceeds 65535 fails on the code: the
assertion bounds the element count only. With word size 2 and 40000
elements the byte length is 80000 > 65535, yet `new_read_raw` accepts and
programs the byte-count register with the truncated value 14464. -/
theorem new_read_raw_accepts_oversized_byte_length :
    (Transfer.new_read_raw regs0 0 0 0 40000 WordSize.TwoBytes).isSome = true ∧
    40000 * WordSize.TwoBytes.bytes = 80000 ∧
    (Transfer.new_read_raw regs0 0 0 0 40000 WordSize.TwoBytes).map
        ChannelRegs.br1bndt = some 14464 := by
  refine ⟨rfl, rfl, rfl⟩

/-- C3: for every status value, the interrupt handler aborts with a
diagnostic carrying the controller address and channel number whenever a
data-transfer-error or user-setting-error flag is set (performing no
actions, hence no notification); otherwise, when suspend-complete or
transfer-complete is set, it writes CR with every interrupt-enable bit
clear and then wakes the waker; and no run of the handler ever writes
the flag-clear register FCR. -/
theorem on_irq_spec (dmaAddr num : Nat) (sr : StatusReg) :
    ((sr.dtef = true ∨ sr.usef = true) →
      ∃ msg, AnyChannel.on_irq dmaAddr num sr = IrqOutcome.panicked msg dmaAddr num) ∧
    (sr.dtef = false → sr.usef = false → (sr.suspf = true ∨ sr.tcf = true) →
      AnyChannel.on_irq dmaAddr num sr
        = IrqOutcome.ran [IrqAction.writeCr ControlReg.zero, IrqAction.wake]) ∧
    (∀ acts, AnyChannel.on_irq dmaAddr num sr = IrqOutcome.ran acts →
      ∀ v, IrqAction.writeFcr v ∉ acts) := by
  cases sr with
  | mk tcf suspf dtef usef =>
    cases dtef <;> cases usef <;> cases suspf <;> cases tcf <;>
      refine ⟨?_, ?_, ?_⟩ <;> simp [AnyChannel.on_irq]

/-- Witness for C3 at a concrete status value (transfer complete, no
errors): the handler clears the interrupt enables and wakes. -/
theorem on_irq_spec_witness :
    AnyChannel.on_irq 1073872896 3
        { tcf := true, suspf := false, dtef := false, usef := false }
      = IrqOutcome.ran [IrqAction.writeCr ControlReg.zero, IrqAction.wake] :=
  (on_irq_spec 1073872896 3
    { tcf := true, suspf := false, dtef := false, usef := false }).2.1
    rfl rfl (Or.inr rfl)

/-- C6: every invocation of the poll path registers the waker strictly
before reading the status register, and it resolves `Ready` exactly when
`is_running` is false at that post-registration read. -/
theorem poll_registers_before_checking (sr : StatusReg) :
    (Transfer.poll sr).1 = [PollAction.registerWaker, PollAction.readStatus sr] ∧
    ((Transfer.poll sr).2 = PollResult.Ready ↔ Transfer.is_running sr = false) := by
  refine ⟨rfl, ?_⟩
  cases hrun : Transfer.is_running sr <;> simp [Transfer.poll, hrun]

/-- Helper: a terminating busy-poll splits the status sequence into a
running prefix, the first not-running status, and an unread remainder,
and its trace reads exactly the prefix and that status. -/
theorem busyPoll_eq_some (srs : List StatusReg) (acts : List DropAction)
    (h : busyPoll srs = some acts) :
    ∃ pre s rest, srs = pre ++ s :: rest ∧
      (∀ x ∈ pre, Transfer.is_running x = true) ∧
      Transfer.is_running s = false ∧
      acts = pre.map DropAction.readStatus ++ [DropAction.readStatus s] := by
  induction srs generalizing acts with
  | nil => simp [busyPoll] at h
  | cons sr rest ih =>
    by_cases hrun : Transfer.is_running sr = true
    · rw [busyPoll, if_pos hrun] at h
      rcases Option.map_eq_some'.mp h with ⟨acts0, hacts0, hcons⟩
      rcases ih acts0 hacts0 with ⟨pre, s, rest0, hsplit, hpre, hs, hacts⟩
      exact ⟨sr :: pre, s, rest0, by simp [hsplit],
        by simpa [hrun] using hpre, hs, by simp [← hcons, hacts]⟩
    · rw [busyPoll, if_neg hrun] at h
      refine ⟨[], sr, rest, by simp, by simp,
        Bool.eq_false_of_not_eq_true hrun, ?_⟩
      simpa using h.symm

/-- C2: whenever the drop path terminates, its action trace starts by
setting the suspend-request bit, then reads statuses while they show
running, stops at the first status with `is_running` false, and ends with
the trailing fence; it cannot terminate without a status read showing
not-running, so the drop path never returns while the channel is still
running. -/
theorem drop_confirms_stopped_before_release (srs : List StatusReg)
    (tr : List DropAction) (h : Transfer.drop srs = some tr) :
    ∃ pre s rest, srs = pre ++ s :: rest ∧
      (∀ x ∈ pre, Transfer.is_running x = true) ∧
      Transfer.is_running s = false ∧
      tr = DropAction.setSusp ::
        (pre.map DropAction.readStatus
          ++ [DropAction.readStatus s, DropAction.fenceAcquire]) := by
  rcases Option.map_eq_some.mp h with ⟨acts, hacts, htr⟩
  rcases busyPoll_eq_some srs acts hacts with ⟨pre, s, rest, hsplit, hpre, hs, hform⟩
  exact ⟨pre, s, rest, hsplit, hpre, hs, by simp [← htr, hform]⟩

/-- Witness for C2: a hardware that reports running once and then
transfer-complete yields the expected trace. -/
theorem drop_confirms_stopped_witness :
    ∃ pre s rest,
      ([{ tcf := false, suspf := false, dtef := false, usef := false },
        { tcf := true, suspf := false, dtef := false, usef := false }]
          : List StatusReg) = pre ++ s :: rest ∧
      (∀ x ∈ pre, Transfer.is_running x = true) ∧
      Transfer.is_running s = false ∧
      ([DropAction.setSusp,
        DropAction.readStatus
          { tcf := false, suspf := false, dtef := false, usef := false },
        DropAction.readStatus
          { tcf := true, suspf := false, dtef := false, usef := false },
        DropAction.fenceAcquire] : List DropAction)
        = DropAction.setSusp ::
          (pre.map DropAction.readStatus
            ++ [DropAction.readStatus s, DropAction.fenceAcquire]) :=
  drop_confirms_stopped_before_release
    [{ tcf := false, suspf := false, dtef := false, usef := false },
     { tcf := true, suspf := false, dtef := false, usef := false }]
    [DropAction.setSusp,
     DropAction.readStatus
       { tcf := false, suspf := false, dtef := false, usef := false },
     DropAction.readStatus
       { tcf := true, suspf := false, dtef := false, usef := false },
     DropAction.fenceAcquire]
    (by rfl)

/-- Helper: indexing into the chaining loop's result applies `link_entry`
at the absolute index to the original entry. -/
theorem fix_links_getElem? (addr : Nat → Nat) (n : Nat) (opt : LliOption) :
    ∀ (items : List LliItem) (i j : Nat),
      (fix_links addr n opt i items)[j]?
        = (items[j]?).map (link_entry addr n opt (i + j)) := by
  intro items
  induction items with
  | nil => intro i j; simp [fix_links]
  | cons a rest ih =>
    intro i j
    cases j with
    | zero => simp [fix_links]
    | succ j =>
      rw [fix_links]
      simpa [Nat.add_assoc, Nat.add_comm 1 j] using ih (i + 1) j

/-- C4: after `fixing_in_mem` on an `N`-entry table (`N ≥ 2`) whose entry
`j` lives at address `addr j`: each entry `i ≤ N-2` has link equal to the
low 16 bits of entry `i+1`'s address OR-ed with the
destination-update-enable flag (bit 27) and the valid flag (bit 16); the
last entry's link is 0 in `Single` mode and entry 0's address with the
same flags in `Repeated` (circular) mode. -/
theorem fixing_in_mem_spec (items : List LliItem) (addr : Nat → Nat)
    (opt : LliOption) (hn : 2 ≤ items.length) :
    (∀ i, i < items.length - 1 →
      ((LliTable.fixing_in_mem items addr opt)[i]?).map LliItem.llr
        = some ((addr (i + 1) % 65536) ||| (1 <<< 27) ||| (1 <<< 16))) ∧
    (opt = LliOption.Single →
      ((LliTable.fixing_in_mem items addr opt)[items.length - 1]?).map LliItem.llr
        = some 0) ∧
    (opt = LliOption.Repeated →
      ((LliTable.fixing_in_mem items addr opt)[items.length - 1]?).map LliItem.llr
        = some ((addr 0 % 65536) ||| (1 <<< 27) ||| (1 <<< 16))) := by
  have hlen : ∀ j, ∀ hj : j < items.length,
      ((LliTable.fixing_in_mem items addr opt)[j]?).map LliItem.llr
        = some ((link_entry addr items.length opt j items[j]).llr) := by
    intro j hj
    rw [LliTable.fixing_in_mem, fix_links_getElem?, List.getElem?_eq_getElem hj]
    simp
  refine ⟨?_, ?_, ?_⟩
  · intro i hi
    have hj : i < items.length := Nat.lt_of_lt_of_le hi (Nat.sub_le _ _)
    rw [hlen i hj]
    have hlt : i + 1 < items.length := by omega
    simp [link_entry, hlt, LliItem.set_llr]
  · intro hopt
    subst hopt
    have hj : items.length - 1 < items.length := by omega
    rw [hlen _ hj]
    have hge : ¬(items.length - 1 + 1 < items.length) := by omega
    simp [link_entry, hge]
  · intro hopt
    subst hopt
    have hj : items.length - 1 < items.length := by omega
    rw [hlen _ hj]
    have hge : ¬(items.length - 1 + 1 < items.length) := by omega
    simp [link_entry, hge, LliItem.set_llr]

/-- Witness for C4: a concrete 2-entry table at address 1000 with entry
stride 8, finalized in `Single` mode: entry 0 links to entry 1's address
with both flags, entry 1's link is 0. -/
theorem fixing_in_mem_spec_witness :
    ((LliTable.fixing_in_mem
        [{ dar := 100, llr := 0 }, { dar := 200, llr := 0 }]
        (fun j => 1000 + 8 * j) LliOption.Single)[0]?).map LliItem.llr
      = some (((1000 + 8 * (0 + 1)) % 65536) ||| (1 <<< 27) ||| (1 <<< 16)) ∧
    ((LliTable.fixing_in_mem
        [{ dar := 100, llr := 0 }, { dar := 200, llr := 0 }]
        (fun j => 1000 + 8 * j) LliOption.Single)[1]?).map LliItem.llr
      = some 0 :=
  ⟨(fixing_in_mem_spec
      [{ dar := 100, llr := 0 }, { dar := 200, llr := 0 }]
      (fun j => 1000 + 8 * j) LliOption.Single (by decide)).1 0 (by decide),
   (fixing_in_mem_spec
      [{ dar := 100, llr := 0 }, { dar := 200, llr := 0 }]
      (fun j => 1000 + 8 * j) LliOption.Single (by decide)).2.1 rfl⟩

/-- C7: for every simple transfer start within the documented length
invariant (byte length at most 65535): the source-increment flag is set
exactly for memory-to-peripheral with increment requested, the
destination-increment flag exactly for peripheral-to-memory with
increment requested; the byte-count register holds
`element_count * word_size`; source/destination address registers get
the memory and peripheral addresses according to direction; and the
final control register has the four interrupt enables and the enable
bit set. -/
theorem new_inner_spec (regs : ChannelRegs) (request : Nat) (dir : Dir)
    (peri_addr mem_addr mem_len : Nat) (incr_mem : Bool) (w : WordSize)
    (hlen : mem_len * w.bytes ≤ 65535) :
    ((Transfer.new_inner regs request dir peri_addr mem_addr mem_len
        incr_mem w).tr1.sinc = true
      ↔ dir = Dir.MemoryToPeripheral ∧ incr_mem = true) ∧
    ((Transfer.new_inner regs request dir peri_addr mem_addr mem_len
        incr_mem w).tr1.dinc = true
      ↔ dir = Dir.PeripheralToMemory ∧ incr_mem = true) ∧
    ((Transfer.new_inner regs request dir peri_addr mem_addr mem_len
        incr_mem w).br1bndt = mem_len * w.bytes) ∧
    (dir = Dir.MemoryToPeripheral →
      (Transfer.new_inner regs request dir peri_addr mem_addr mem_len
        incr_mem w).sar = mem_addr ∧
      (Transfer.new_inner regs request dir peri_addr mem_addr mem_len
        incr_mem w).dar = peri_addr) ∧
    (dir = Dir.PeripheralToMemory →
      (Transfer.new_inner regs request dir peri_addr mem_addr mem_len
        incr_mem w).sar = peri_addr ∧
      (Transfer.new_inner regs request dir peri_addr mem_addr mem_len
        incr_mem w).dar = mem_addr) ∧
    ((Transfer.new_inner regs request dir peri_addr mem_addr mem_len
        incr_mem w).cr
      = { ControlReg.zero with
          tcie := true, useie := true, dteie := true, suspie := true,
          en := true }) := by
  have hb : (mem_len * w.bytes) % 65536 = mem_len * w.bytes :=
    Nat.mod_eq_of_lt (by omega)
  cases dir <;> cases incr_mem <;> simp [Transfer.new_inner, hb]

/-- Witness for C7 at a concrete memory-to-peripheral start: 3 one-byte
elements, memory address 6, peripheral address 5, increment requested. -/
theorem new_inner_spec_witness :
    ((Transfer.new_inner regs0 0 Dir.MemoryToPeripheral 5 6 3 true
        WordSize.OneByte).tr1.sinc = true
      ↔ Dir.MemoryToPeripheral = Dir.MemoryToPeripheral ∧ true = true) ∧
    ((Transfer.new_inner regs0 0 Dir.MemoryToPeripheral 5 6 3 true
        WordSize.OneByte).tr1.dinc = true
      ↔ Dir.MemoryToPeripheral = Dir.PeripheralToMemory ∧ true = true) ∧
    ((Transfer.new_inner regs0 0 Dir.MemoryToPeripheral 5 6 3 true
        WordSize.OneByte).br1bndt = 3 * WordSize.OneByte.bytes) ∧
    (Dir.MemoryToPeripheral = Dir.MemoryToPeripheral →
      (Transfer.new_inner regs0 0 Dir.MemoryToPeripheral 5 6 3 true
        WordSize.OneByte).sar = 6 ∧
      (Transfer.new_inner regs0 0 Dir.MemoryToPeripheral 5 6 3 true
        WordSize.OneByte).dar = 5) ∧
    (Dir.MemoryToPeripheral = Dir.PeripheralToMemory →
      (Transfer.new_inner regs0 0 Dir.MemoryToPeripheral 5 6 3 true
        WordSize.OneByte).sar = 5 ∧
      (Transfer.new_inner regs0 0 Dir.MemoryToPeripheral 5 6 3 true
        WordSize.OneByte).dar = 6) ∧
    ((Transfer.new_inner regs0 0 Dir.MemoryToPeripheral 5 6 3 true
        WordSize.OneByte).cr
      = { ControlReg.zero with
          tcie := true, useie := true, dteie := true, suspie := true,
          en := true }) :=
  new_inner_spec regs0 0 Dir.MemoryToPeripheral 5 6 3 true WordSize.OneByte
    (by decide)

/-- C8: for every linked-list transfer start on a table with at least two
entries whose first entry lives at a 32-bit address: source increment is
programmed false and destination increment true; the link register is
preloaded with the first entry's post-chaining link field (entry 1's
address low 16 bits with the flag bits); the destination-address
register gets the first entry's captured buffer address; and the
table-base register gets the upper 16 bits of the first entry's
address. -/
theorem new_read_with_lli_spec (regs : ChannelRegs) (request peri_addr : Nat)
    (items : List LliItem) (addr : Nat → Nat) (opt : LliOption)
    (buflen : Nat) (w : WordSize)
    (hlen : 2 ≤ items.length) (haddr : addr 0 < 4294967296) :
    ((Transfer.new_read_with_lli regs request peri_addr items addr opt
        buflen w).1.tr1.sinc = false) ∧
    ((Transfer.new_read_with_lli regs request peri_addr items addr opt
        buflen w).1.tr1.dinc = true) ∧
    ((Transfer.new_read_with_lli regs request peri_addr items addr opt
        buflen w).1.llr
      = (addr 1 % 65536) ||| (1 <<< 27) ||| (1 <<< 16)) ∧
    ((Transfer.new_read_with_lli regs request peri_addr items addr opt
        buflen w).1.dar = items.headI.dar) ∧
    ((Transfer.new_read_with_lli regs request peri_addr items addr opt
        buflen w).1.lbar = addr 0 >>> 16) := by
  obtain ⟨a, b, rest, rfl⟩ : ∃ a b rest, items = a :: b :: rest := by
    cases items with
    | nil => simp at hlen
    | cons a t =>
      cases t with
      | nil => simp at hlen
      | cons b rest => exact ⟨a, b, rest, rfl⟩
  have hlink : 0 + 1 < (a :: b :: rest).length := by
    simp only [List.length_cons]
    omega
  have hmod : (addr 0 >>> 16) % 65536 = addr 0 >>> 16 := by
    apply Nat.mod_eq_of_lt
    rw [Nat.shiftRight_eq_div_pow]
    exact Nat.div_lt_of_lt_mul (by norm_num; omega)
  refine ⟨rfl, rfl, ?_, ?_, ?_⟩
  · show (LliTable.fixing_in_mem (a :: b :: rest) addr opt).headI.llr = _
    simp [LliTable.fixing_in_mem, fix_links, link_entry, hlink, LliItem.set_llr]
  · show (LliTable.fixing_in_mem (a :: b :: rest) addr opt).headI.dar = _
    simp [LliTable.fixing_in_mem, fix_links, link_entry, hlink, LliItem.set_llr]
  · show (addr 0 >>> 16) % 65536 = addr 0 >>> 16
    exact hmod

/-- Witness for C8 on a concrete 2-entry table at address 70000. -/
theorem new_read_with_lli_spec_witness :
    ((Transfer.new_read_with_lli regs0 7 4096
        [{ dar := 100, llr := 0 }, { dar := 200, llr := 0 }]
        (fun j => 70000 + 8 * j) LliOption.Repeated 6
        WordSize.TwoBytes).1.tr1.sinc = false) ∧
    ((Transfer.new_read_with_lli regs0 7 4096
        [{ dar := 100, llr := 0 }, { dar := 200, llr := 0 }]
        (fun j => 70000 + 8 * j) LliOption.Repeated 6
        WordSize.TwoBytes).1.tr1.dinc = true) ∧
    ((Transfer.new_read_with_lli regs0 7 4096
        [{ dar := 100, llr := 0 }, { dar := 200, llr := 0 }]
        (fun j => 70000 + 8 * j) LliOption.Repeated 6
        WordSize.TwoBytes).1.llr
      = ((70000 + 8 * 1) % 65536) ||| (1 <<< 27) ||| (1 <<< 16)) ∧
    ((Transfer.new_read_with_lli regs0 7 4096
        [{ dar := 100, llr := 0 }, { dar := 200, llr := 0 }]
        (fun j => 70000 + 8 * j) LliOption.Repeated 6
        WordSize.TwoBytes).1.dar
      = ([{ dar := 100, llr := 0 }, { dar := 200, llr := 0 }]
          : List LliItem).headI.dar) ∧
    ((Transfer.new_read_with_lli regs0 7 4096
        [{ dar := 100, llr := 0 }, { dar := 200, llr := 0 }]
        (fun j => 70000 + 8 * j) LliOption.Repeated 6
        WordSize.TwoBytes).1.lbar = (70000 + 8 * 0) >>> 16) :=
  new_read_with_lli_spec regs0 7 4096
    [{ dar := 100, llr := 0 }, { dar := 200, llr := 0 }]
    (fun j => 70000 + 8 * j) LliOption.Repeated 6 WordSize.TwoBytes
    (by decide) (by decide)

/-- C9: on a table built from two buffers with distinct captured
addresses, `find_last_buffer_in_double_buffer_mode` applied to buffer
0's address returns buffer 1, and applied to buffer 1's address returns
buffer 0. -/
theorem find_last_buffer_spec {β : Type} [Inhabited β] (b0 b1 : β)
    (addrOf : β → Nat) (buflen : Nat) (w : WordSize) (t : LliTable β)
    (hnew : LliTable.new [b0, b1] addrOf buflen w = some t)
    (hne : addrOf b0 ≠ addrOf b1) :
    t.find_last_buffer_in_double_buffer_mode (addrOf b0) = some b1 ∧
    t.find_last_buffer_in_double_buffer_mode (addrOf b1) = some b0 := by
  rw [LliTable.new] at hnew
  split at hnew
  · have ht := Option.some.inj hnew
    subst ht
    constructor
    · simp [LliTable.find_last_buffer_in_double_buffer_mode, List.headI]
    · simp [LliTable.find_last_buffer_in_double_buffer_mode, List.headI, hne]
  · exact absurd hnew (by simp)

/-- Witness for C9 on buffers at addresses 10 and 20. -/
theorem find_last_buffer_spec_witness :
    (({ addrs := [10, 20],
        items := [{ dar := 10, llr := 0 }, { dar := 20, llr := 0 }] }
        : LliTable Nat).find_last_buffer_in_double_buffer_mode 10
      = some 20) ∧
    (({ addrs := [10, 20],
        items := [{ dar := 10, llr := 0 }, { dar := 20, llr := 0 }] }
        : LliTable Nat).find_last_buffer_in_double_buffer_mode 20
      = some 10) :=
  find_last_buffer_spec 10 20 id 1 WordSize.OneByte
    { addrs := [10, 20],
      items := [{ dar := 10, llr := 0 }, { dar := 20, llr := 0 }] }
    (by rfl) (by decide)

end Gpdma
